import Mathlib

/-!
Verification of the GraphQL-over-WebSocket client protocol engine
(`channels_graphql_ws/client.py`, class `GraphqlWsClient`).

The client is embedded shallowly:

* A wire message is a Python dict with at most the keys `id`, `type` and
  `payload`; it is modelled as a record of `Option` fields, where `none`
  means the key is absent from the dict.
* The transport's inbound side is modelled as the list of messages the
  server will deliver, consumed destructively from the front.  A receive
  on an exhausted list is the transport-level timeout.
* Python exceptions become an explicit error type `GqlError`; every
  fallible operation returns the error (or its result) together with the
  part of the inbound stream that has not been consumed yet.
* Wall-clock time in the bounded wait is modelled by a function giving
  the duration of each polling iteration, and the unbounded `while` loop
  by an explicit fuel argument.
-/

/-- A JSON-like structured value, the shape of message payloads. -/
inductive Value where
  | str : String → Value
  | num : Int → Value
  | obj : List (String × Value) → Value
  | arr : List Value → Value


/-- A wire message: a mapping with the optional keys `id`, `type` and
`payload`.  A field equal to `none` models the key being absent from the
Python dict (never a key bound to null). -/
structure Message where
  id : Option String := none
  type : Option String := none
  payload : Option Value := none


/-- The errors the client can raise.  `timeout` is the transport's
`asyncio.TimeoutError` on receive, `keyError k` a Python `KeyError` on a
missing dict key `k`, `responseError p` the `GraphqlWsResponseError`
carrying the full payload `p`, and `handshakeViolation r` the
`AssertionError` of `gql_connect_and_init` carrying the offending
response `r`. -/
inductive GqlError where
  | timeout
  | keyError (key : String)
  | responseError (payload : Value)
  | handshakeViolation (resp : Message)


/-- Key membership in a payload, the Python test `"errors" in payload`
for a dict payload (the client only ever applies it to dict payloads). -/
def payloadHasKey (p : Value) (k : String) : Bool :=
  match p with
  | .obj fields => fields.any (fun f => f.1 == k)
  | _ => false

/-- `GraphqlWsClient._is_keep_alive_response`:
`response.get("type") == "ka"`. -/
def _is_keep_alive_response (response : Message) : Bool :=
  response.type == some "ka"

/-- `GraphqlWsClient._response_payload`: retrieve the `payload` field
(`None` when absent) or raise `GraphqlWsResponseError` when the payload
is present and contains an `errors` key. -/
def _response_payload (response : Message) : Except GqlError (Option Value) :=
  match response.payload with
  | none => .ok none
  | some payload =>
    if payloadHasKey payload "errors" then .error (.responseError payload)
    else .ok (some payload)

/-- `GraphqlWsClient._next_response`: loop receiving from the transport,
skipping keep-alive messages; with a `wait_id` set, also skip (and so
drop) every message whose `id` differs, reading `response["id"]`
unconditionally (a `KeyError` when the key is absent).  Returns the
outcome together with the not-yet-consumed tail of the inbound stream;
an exhausted stream is the transport timing out. -/
def _next_response (wait_id : Option String) :
    List Message → Except GqlError Message × List Message
  | [] => (.error .timeout, [])
  | response :: rest =>
    if _is_keep_alive_response response then _next_response wait_id rest
    else
      match wait_id with
      | none => (.ok response, rest)
      | some wid =>
        match response.id with
        | none => (.error (.keyError "id"), rest)
        | some i =>
          if i == wid then (.ok response, rest)
          else _next_response wait_id rest

/-- `GraphqlWsClient.gql_receive`: delegate to `_next_response`, then
extract the payload via `_response_payload` (errors propagate). -/
def gql_receive (wait_id : Option String) (stream : List Message) :
    Except GqlError (Option Value) × List Message :=
  match _next_response wait_id stream with
  | (.ok response, rest) => (_response_payload response, rest)
  | (.error e, rest) => (.error e, rest)

/-- The `id` argument of `gql_send`: its Python default is the sentinel
`AUTO` (mint a fresh identifier), and the caller may instead pass an
explicit `None` (omit the key) or an explicit identifier. -/
inductive IdArg where
  | auto
  | explicitNone
  | given (s : String)

/-- The id `gql_send` ends up using: the freshly minted identifier
`fresh` (standing for `str(uuid.uuid4().hex)`) when the argument is the
`AUTO` sentinel. -/
def resolveId (fresh : String) : IdArg → Option String
  | .auto => some fresh
  | .explicitNone => none
  | .given s => some s

/-- What a `gql_send` call produces: the wire message handed to
`transport.send` and the identifier returned to the caller. -/
structure SendResult where
  message : Message
  retId : Option String

/-- `GraphqlWsClient.gql_send`: mint an id when the argument is `AUTO`,
build a message holding only the non-`None` fields among `id`, `type`
and `payload`, hand it to the transport, and return the id used. -/
def gql_send (fresh : String) (id : IdArg) (type : Option String)
    (payload : Option Value) : SendResult :=
  let rid := resolveId fresh id
  { message := { id := rid, type := type, payload := payload }, retId := rid }

/-- The keys actually serialized on the wire for a message, in the order
`gql_send` inserts them; an absent field contributes no key at all. -/
def wireFields (m : Message) : List (String × Value) :=
  (match m.id with | some s => [("id", Value.str s)] | none => []) ++
  (match m.type with | some s => [("type", Value.str s)] | none => []) ++
  (match m.payload with | some p => [("payload", p)] | none => [])

/-! ### `textwrap.dedent`

`gql_start` normalizes the query with Python's `textwrap.dedent`.
Modelled from the spec: `dedent` is library code outside this
repository; the spec describes it as trimming the common leading
indentation across the lines of the text.  The model below follows the
standard algorithm: whitespace-only lines are first normalized to empty
lines, the margin is the longest common prefix of the leading
space/tab runs of the remaining lines, and that margin is then stripped
from the front of every line.  Lines are handled as `List Char`. -/

/-- A horizontal-whitespace character (space or tab). -/
def isIndentChar (c : Char) : Bool := c == ' ' || c == '\t'

/-- A non-empty line consisting solely of spaces and tabs. -/
def wsOnlyLine (l : List Char) : Bool := !l.isEmpty && l.all isIndentChar

/-- The leading space/tab run of a line. -/
def lineIndent (l : List Char) : List Char := l.takeWhile isIndentChar

/-- Whether the line has a character other than space or tab. -/
def lineHasContent (l : List Char) : Bool := !(l.dropWhile isIndentChar).isEmpty

/-- Longest common prefix of two indentation runs. -/
def marginMeet : List Char → List Char → List Char
  | a :: as, b :: bs => if a == b then a :: marginMeet as bs else []
  | _, _ => []

/-- The common margin of a list of indentation runs (empty when there is
no line with content, in which case nothing is stripped). -/
def computeMargin : List (List Char) → List Char
  | [] => []
  | i :: is => is.foldl marginMeet i

/-- Strip the margin from the front of a line when it is there. -/
def stripMargin (margin l : List Char) : List Char :=
  if margin.isEmpty then l
  else if margin.isPrefixOf l then l.drop margin.length else l

/-- Dedent a text already split into lines. -/
def dedentLines (lines : List (List Char)) : List (List Char) :=
  let cleaned := lines.map (fun l => if wsOnlyLine l then [] else l)
  let margin := computeMargin ((cleaned.filter lineHasContent).map lineIndent)
  cleaned.map (stripMargin margin)

/-- Split a character list on newline characters (Python's
`text.split("\n")`: one more piece than there are newlines). -/
def splitLinesL : List Char → List (List Char)
  | [] => [[]]
  | c :: cs =>
    if c == '\n' then [] :: splitLinesL cs
    else
      match splitLinesL cs with
      | l :: ls => (c :: l) :: ls
      | [] => [[c]]

/-- Rejoin lines with newline characters. -/
def joinLinesL : List (List Char) → List Char
  | [] => []
  | [l] => l
  | l :: ls => l ++ '\n' :: joinLinesL ls

/-- `textwrap.dedent` on a string: split on newlines, dedent, rejoin. -/
def dedent (text : String) : String :=
  String.mk (joinLinesL (dedentLines (splitLinesL text.data)))

/-- `GraphqlWsClient.gql_start`: send a `type = "start"` message whose
payload holds the dedented query and the variables (`variables or \x7b\x7d`,
an empty mapping when not supplied), returning the identifier. -/
def gql_start (fresh query : String) (vars : Option Value) : SendResult :=
  gql_send fresh .auto (some "start")
    (some (.obj [("query", .str (dedent query)),
                 ("variables", vars.getD (.obj []))]))

/-- Modelled from the spec: the module-level default timeout constant
(`GraphqlWsTransport.TIMEOUT`, defined in the transport interface
outside this file); the client only passes it around, so any positive
value serves. -/
def TIMEOUT : ℚ := 60

/-- One observable interaction of the client with its transport. -/
inductive TransportOp where
  | connect (timeout : ℚ)
  | sendMsg (m : Message)
  | recvMsg
  | shutdown

/-- The initialization message `gql_connect_and_init` sends:
`\x7b"type": "connection_init", "payload": ""\x7d`. -/
def connectionInitMsg : Message :=
  { id := none, type := some "connection_init", payload := some (.str "") }

/-- `GraphqlWsClient.gql_connect_and_init`: open the transport with the
default timeout; unless `connect_only`, send the initialization message
and receive exactly one response, asserting its `type` is
`"connection_ack"`.  Returns the outcome, the transport operations
performed in order, and the unconsumed inbound stream. -/
def gql_connect_and_init (connect_only : Bool) (inbound : List Message) :
    Except GqlError Unit × List TransportOp × List Message :=
  if connect_only then (.ok (), [.connect TIMEOUT], inbound)
  else
    let ops := [TransportOp.connect TIMEOUT, .sendMsg connectionInitMsg, .recvMsg]
    match inbound with
    | [] => (.error .timeout, ops, [])
    | resp :: rest =>
      match resp.type with
      | none => (.error (.keyError "type"), ops, rest)
      | some t =>
        if t == "connection_ack" then (.ok (), ops, rest)
        else (.error (.handshakeViolation resp), ops, rest)

/-- `GraphqlWsClient.gql_execute`: start an exchange, receive its
response by id, receive (and discard) the `complete` message by the same
id, and return the first response's payload; errors propagate at the
point they occur. -/
def gql_execute (fresh query : String) (vars : Option Value)
    (inbound : List Message) : Except GqlError (Option Value) × List Message :=
  let sr := gql_start fresh query vars
  match gql_receive sr.retId inbound with
  | (.error e, rest) => (.error e, rest)
  | (.ok resp, rest) =>
    match gql_receive sr.retId rest with
    | (.error e, rest2) => (.error e, rest2)
    | (.ok _, rest2) => (.ok resp, rest2)

/-- `GraphqlWsClient.gql_subscribe`: start an exchange and, when
`wait_confirmation`, receive one confirmation by id before returning the
identifier. -/
def gql_subscribe (fresh query : String) (vars : Option Value)
    (wait_confirmation : Bool) (inbound : List Message) :
    Except GqlError (Option String) × List Message :=
  let sr := gql_start fresh query vars
  if wait_confirmation then
    match gql_receive sr.retId inbound with
    | (.error e, rest) => (.error e, rest)
    | (.ok _, rest) => (.ok sr.retId, rest)
  else (.ok sr.retId, inbound)

/-- Outcome of `gql_wait_response`. -/
inductive WaitResult where
  | found (payload : Option Value) (rest : List Message)
  | timeoutError
  | failed (e : GqlError)
  | outOfFuel

/-- The `while timeout > 0` loop of `GraphqlWsClient.gql_wait_response`.
`elapsed i` is the wall-clock duration of iteration `i` (the difference
of the two `time.monotonic()` reads around it); `fuel` bounds the number
of iterations so the recursion is total, `outOfFuel` standing for a run
longer than the bound.  A transport timeout inside an iteration is
swallowed; any other error propagates; when the remaining budget is not
positive the loop exits and raises `asyncio.TimeoutError`. -/
def gql_wait_loop (checker : Option Value → Bool) (elapsed : ℕ → ℚ) :
    ℕ → ℕ → ℚ → List Message → WaitResult
  | 0, _, _, _ => .outOfFuel
  | fuel + 1, iter, timeout, stream =>
    if 0 < timeout then
      match gql_receive none stream with
      | (.ok payload, rest) =>
        if checker payload then .found payload rest
        else gql_wait_loop checker elapsed fuel (iter + 1) (timeout - elapsed iter) rest
      | (.error .timeout, rest) =>
        gql_wait_loop checker elapsed fuel (iter + 1) (timeout - elapsed iter) rest
      | (.error e, _) => .failed e
    else .timeoutError

/-- `GraphqlWsClient.gql_wait_response`: run the polling loop with the
budget defaulting to the module default timeout constant when unset. -/
def gql_wait_response (checker : Option Value → Bool) (timeout : Option ℚ)
    (elapsed : ℕ → ℚ) (fuel : ℕ) (stream : List Message) : WaitResult :=
  gql_wait_loop checker elapsed fuel 0 (timeout.getD TIMEOUT) stream

/-! ## Basic lemmas about the receive loop -/

/-- `_next_response` succeeds only on messages that match the wait:
a returned message is never a keep-alive. -/
theorem nextresp_not_ka (wid : Option String) :
    ∀ (stream : List Message) (m : Message) (rest : List Message),
      _next_response wid stream = (.ok m, rest) →
      _is_keep_alive_response m = false := by
  intro stream
  induction stream with
  | nil => intro m rest h; simp [_next_response.eq_def] at h
  | cons a as ih =>
    intro m rest h
    rw [_next_response.eq_def] at h
    simp only [] at h
    by_cases hka : _is_keep_alive_response a = true
    · rw [if_pos hka] at h
      exact ih m rest h
    · rw [if_neg hka] at h
      cases wid with
      | none =>
        injection h with h1 h2
        injection h1 with h1
        rw [← h1]
        simpa using hka
      | some w =>
        cases hid : a.id with
        | none => rw [hid] at h; simp at h
        | some i =>
          rw [hid] at h
          simp only [] at h
          by_cases heq : (i == w) = true
          · rw [if_pos heq] at h
            injection h with h1 h2
            injection h1 with h1
            rw [← h1]
            simpa using hka
          · rw [if_neg heq] at h
            exact ih m rest h

/-- A non-keep-alive message whose id matches the wait is returned at
once, consuming only itself. -/
theorem nextresp_match (w : String) (m : Message) (stream : List Message)
    (hka : _is_keep_alive_response m = false) (hid : m.id = some w) :
    _next_response (some w) (m :: stream) = (.ok m, stream) := by
  rw [_next_response, if_neg (by simp [hka]), hid]
  simp

/-- A non-keep-alive message whose id differs from the wait is dropped
and the loop continues on the rest of the stream. -/
theorem nextresp_drop (w : String) (m : Message) (stream : List Message)
    (i : String) (hka : _is_keep_alive_response m = false)
    (hid : m.id = some i) (hne : i ≠ w) :
    _next_response (some w) (m :: stream) = _next_response (some w) stream := by
  rw [_next_response, if_neg (by simp [hka]), hid]
  simp [hne]

/-! ## Claims about response resolution -/

/-- C1: a receive call never returns a keep-alive message — every
message whose `type` is `"ka"` is discarded and the loop continues; in
particular, on the inbound stream holding two keep-alives followed by an
`X`-tagged data message, `gql_receive` waiting on `X` returns the data
payload and consumes all three messages. -/
theorem C1_keep_alive_never_returned :
    (∀ (wid : Option String) (stream : List Message) (m : Message)
        (rest : List Message),
      _next_response wid stream = (.ok m, rest) →
      _is_keep_alive_response m = false) ∧
    gql_receive (some "X")
      [{ type := some "ka" }, { type := some "ka" },
       { id := some "X", payload := some (.obj [("data", .num 1)]) }] =
      (.ok (some (.obj [("data", .num 1)])), []) :=
  ⟨nextresp_not_ka, rfl⟩

/-- Witness for C1 at a concrete stream: the message returned while
waiting on `"X"` is not a keep-alive. -/
theorem C1_keep_alive_never_returned_witness :
    _is_keep_alive_response
      { id := some "X", payload := some (.obj [("data", .num 1)]) } = false :=
  C1_keep_alive_never_returned.1 (some "X")
    [{ type := some "ka" }, { type := some "ka" },
     { id := some "X", payload := some (.obj [("data", .num 1)]) }]
    { id := some "X", payload := some (.obj [("data", .num 1)]) } [] rfl

/-- C2: while waiting on a specific id, a non-keep-alive message with a
different id is consumed and dropped, never buffered; on the stream
holding a `Y`-tagged then an `X`-tagged message, receiving on `X`
returns the `X` payload having consumed everything, and a later receive
on `Y` finds an exhausted stream (transport timeout), not the dropped
message. -/
theorem C2_mismatch_dropped_not_buffered :
    (∀ (w : String) (m : Message) (stream : List Message) (i : String),
      _is_keep_alive_response m = false → m.id = some i → i ≠ w →
      _next_response (some w) (m :: stream) = _next_response (some w) stream) ∧
    gql_receive (some "X")
      [{ id := some "Y", payload := some (.obj []) },
       { id := some "X", payload := some (.obj [("data", .num 1)]) }] =
      (.ok (some (.obj [("data", .num 1)])), []) ∧
    gql_receive (some "Y") [] = (.error .timeout, []) :=
  ⟨fun w m stream i hka hid hne => nextresp_drop w m stream i hka hid hne,
   rfl, rfl⟩

/-- Witness for C2 at a concrete mismatching message. -/
theorem C2_mismatch_dropped_not_buffered_witness :
    _next_response (some "X") [{ id := some "Y", payload := some (.obj []) }] =
      _next_response (some "X") [] :=
  C2_mismatch_dropped_not_buffered.1 "X"
    { id := some "Y", payload := some (.obj []) } [] "Y" rfl rfl (by decide)

/-- C3: for a message resolved by the receive loop, `gql_receive` raises
the response error carrying the exact payload when the payload is
present and holds an `errors` key, and otherwise returns the payload
(`none` when absent) without raising. -/
theorem C3_response_error_classification (wid : Option String)
    (stream : List Message) (m : Message) (rest : List Message)
    (h : _next_response wid stream = (.ok m, rest)) :
    (∀ p, m.payload = some p → payloadHasKey p "errors" = true →
      gql_receive wid stream = (.error (.responseError p), rest)) ∧
    (∀ p, m.payload = some p → payloadHasKey p "errors" = false →
      gql_receive wid stream = (.ok (some p), rest)) ∧
    (m.payload = none → gql_receive wid stream = (.ok none, rest)) := by
  refine ⟨?_, ?_, ?_⟩
  · intro p hp hk
    rw [gql_receive, h]
    simp [_response_payload, hp, hk]
  · intro p hp hk
    rw [gql_receive, h]
    simp [_response_payload, hp, hk]
  · intro hp
    rw [gql_receive, h]
    simp [_response_payload, hp]

/-- Witness for C3: a concrete errors-carrying payload raises the
response error with that payload, a concrete clean one is returned. -/
theorem C3_response_error_classification_witness :
    gql_receive none [{ payload := some (.obj [("errors", .arr [])]) }] =
      (.error (.responseError (.obj [("errors", .arr [])])), []) ∧
    gql_receive none [{ payload := some (.obj [("data", .num 1)]) }] =
      (.ok (some (.obj [("data", .num 1)])), []) :=
  ⟨(C3_response_error_classification none
      [{ payload := some (.obj [("errors", .arr [])]) }]
      { payload := some (.obj [("errors", .arr [])]) } [] rfl).1
      (.obj [("errors", .arr [])]) rfl rfl,
   (C3_response_error_classification none
      [{ payload := some (.obj [("data", .num 1)]) }]
      { payload := some (.obj [("data", .num 1)]) } [] rfl).2.1
      (.obj [("data", .num 1)]) rfl rfl⟩

/-- C9: once the keep-alive check passes, the receive loop reads the
`id` key unconditionally, so with a wait id set, a non-keep-alive
message lacking `id` makes the receive fail with a `KeyError` instead of
being skipped or returned. -/
theorem C9_missing_id_keyerror (w : String) (m : Message)
    (stream : List Message) (hka : _is_keep_alive_response m = false)
    (hid : m.id = none) :
    _next_response (some w) (m :: stream) = (.error (.keyError "id"), stream) ∧
    gql_receive (some w) (m :: stream) = (.error (.keyError "id"), stream) := by
  have h1 : _next_response (some w) (m :: stream) =
      (.error (.keyError "id"), stream) := by
    rw [_next_response, if_neg (by simp [hka]), hid]
  exact ⟨h1, by rw [gql_receive, h1]⟩

/-- Witness for C9 at a concrete id-less data message. -/
theorem C9_missing_id_keyerror_witness :
    gql_receive (some "W") [{ type := some "data" }] =
      (.error (.keyError "id"), []) :=
  (C9_missing_id_keyerror "W" { type := some "data" } [] rfl rfl).2

/-! ## Claims about message construction and the handshake -/

/-- C6: the wire message built by `gql_send` holds exactly the keys
whose arguments are not absent (an absent argument yields no key, never
a null); with all three supplied explicitly the message holds exactly
those three fields with those values; and the call returns the
identifier actually used — the freshly minted one when `id` was not
supplied. -/
theorem C6_send_exact_fields :
    (∀ (fresh : String) (idArg : IdArg) (ty : Option String) (pl : Option Value),
      (wireFields (gql_send fresh idArg ty pl).message).map Prod.fst =
        (if (resolveId fresh idArg).isSome then ["id"] else []) ++
        (if ty.isSome then ["type"] else []) ++
        (if pl.isSome then ["payload"] else [])) ∧
    (∀ (fresh i t : String) (p : Value),
      wireFields (gql_send fresh (.given i) (some t) (some p)).message =
        [("id", .str i), ("type", .str t), ("payload", p)] ∧
      (gql_send fresh (.given i) (some t) (some p)).retId = some i) ∧
    (∀ (fresh : String) (ty : Option String) (pl : Option Value),
      (gql_send fresh .auto ty pl).retId = some fresh) ∧
    (∀ (fresh : String) (idArg : IdArg) (ty : Option String) (pl : Option Value),
      (gql_send fresh idArg ty pl).retId =
        (gql_send fresh idArg ty pl).message.id) := by
  refine ⟨?_, fun fresh i t p => ⟨rfl, rfl⟩, fun fresh ty pl => rfl,
    fun fresh idArg ty pl => rfl⟩
  intro fresh idArg ty pl
  cases idArg <;> cases ty <;> cases pl <;> rfl

/-- C5: the handshake opens the transport first, then (unless
`connect_only`) sends exactly one `connection_init` message with an
empty payload, blocks for exactly one response, and fails with the
assertion-grade handshake violation when that response's `type` is not
`"connection_ack"`; nothing but the init message is ever sent, so no
exchange can have started before the failure.  With `connect_only`, no
init message is sent and no response is awaited. -/
theorem C5_connect_and_init (inbound : List Message) (resp : Message)
    (rest : List Message) (t : String) :
    gql_connect_and_init true inbound = (.ok (), [.connect TIMEOUT], inbound) ∧
    (gql_connect_and_init false inbound).2.1 =
      [.connect TIMEOUT, .sendMsg connectionInitMsg, .recvMsg] ∧
    connectionInitMsg.type = some "connection_init" ∧
    connectionInitMsg.payload = some (.str "") ∧
    (gql_connect_and_init false (resp :: rest)).2.2 = rest ∧
    (resp.type = some t → t ≠ "connection_ack" →
      (gql_connect_and_init false (resp :: rest)).1 =
        .error (.handshakeViolation resp)) ∧
    (∀ m, TransportOp.sendMsg m ∈ (gql_connect_and_init false inbound).2.1 →
      m = connectionInitMsg) := by
  have hops : ∀ (ib : List Message), (gql_connect_and_init false ib).2.1 =
      [TransportOp.connect TIMEOUT, .sendMsg connectionInitMsg, .recvMsg] := by
    intro ib
    cases ib with
    | nil => rfl
    | cons r rs =>
      cases hr : r.type with
      | none => simp [gql_connect_and_init, hr]
      | some t2 =>
        by_cases h2 : (t2 == "connection_ack") = true <;>
          simp [gql_connect_and_init, hr, h2]
  refine ⟨rfl, hops inbound, rfl, rfl, ?_, ?_, ?_⟩
  · cases hr : resp.type with
    | none => simp [gql_connect_and_init, hr]
    | some t2 =>
      by_cases h2 : (t2 == "connection_ack") = true <;>
        simp [gql_connect_and_init, hr, h2]
  · intro ht hne
    simp [gql_connect_and_init, ht, hne]
  · intro m hm
    rw [hops inbound] at hm
    simpa using hm

/-- Witness for C5: a server answering with type `"bogus"` makes the
handshake fail with the handshake violation carrying that response. -/
theorem C5_connect_and_init_witness :
    (gql_connect_and_init false [{ type := some "bogus" }]).1 =
      .error (.handshakeViolation { type := some "bogus" }) :=
  (C5_connect_and_init [{ type := some "bogus" }] { type := some "bogus" } []
    "bogus").2.2.2.2.2.1 rfl (by decide)

/-! ## Claims about the orchestrated `gql_execute` -/

/-- C7: `gql_execute` starts an exchange, returns the payload of the
first id-filtered receive, and performs exactly one more id-filtered
receive whose result is discarded; against a server answering with one
data message and one complete message tagged with the returned id, it
returns the data payload and leaves the stream empty. -/
theorem C7_execute_drains_stream (fresh query : String) (vars : Option Value)
    (p : Value) (hperrs : payloadHasKey p "errors" = false) :
    (∀ (inbound r1 r2 : List Message) (pay pay2 : Option Value),
      gql_receive (some fresh) inbound = (.ok pay, r1) →
      gql_receive (some fresh) r1 = (.ok pay2, r2) →
      gql_execute fresh query vars inbound = (.ok pay, r2)) ∧
    gql_execute fresh query vars
      [{ id := some fresh, type := some "data", payload := some p },
       { id := some fresh, type := some "complete" }] = (.ok (some p), []) := by
  have hrid : (gql_start fresh query vars).retId = some fresh := rfl
  have hgen : ∀ (inbound r1 r2 : List Message) (pay pay2 : Option Value),
      gql_receive (some fresh) inbound = (.ok pay, r1) →
      gql_receive (some fresh) r1 = (.ok pay2, r2) →
      gql_execute fresh query vars inbound = (.ok pay, r2) := by
    intro inbound r1 r2 pay pay2 h1 h2
    simp only [gql_execute, hrid, h1, h2]
  refine ⟨hgen, ?_⟩
  have hd : gql_receive (some fresh)
      [{ id := some fresh, type := some "data", payload := some p },
       { id := some fresh, type := some "complete" }] =
      (.ok (some p), [{ id := some fresh, type := some "complete" }]) := by
    rw [gql_receive,
      nextresp_match fresh { id := some fresh, type := some "data", payload := some p }
        [{ id := some fresh, type := some "complete" }] rfl rfl]
    simp [_response_payload, hperrs]
  have hc : gql_receive (some fresh)
      [{ id := some fresh, type := some "complete" }] = (.ok none, []) := by
    rw [gql_receive,
      nextresp_match fresh { id := some fresh, type := some "complete" } [] rfl rfl]
    simp [_response_payload]
  exact hgen _ _ _ _ _ hd hc

/-- Witness for C7 on a concrete identifier and payload. -/
theorem C7_execute_drains_stream_witness :
    gql_execute "I" "q" none
      [{ id := some "I", type := some "data",
         payload := some (.obj [("data", .num 1)]) },
       { id := some "I", type := some "complete" }] =
      (.ok (some (.obj [("data", .num 1)])), []) :=
  (C7_execute_drains_stream "I" "q" none (.obj [("data", .num 1)]) rfl).2

/-- A sample payload carrying an `errors` field. -/
def sampleErrors : Value := .obj [("errors", .arr [.str "boom"])]

/-- C10: when the first id-filtered receive inside `gql_execute` raises
a response error, the error propagates immediately, the second terminal
receive is never performed, and the stream is left not drained — on the
error path the terminal complete message remains unconsumed. -/
theorem C10_execute_error_not_drained (fresh query : String)
    (vars : Option Value) (inbound rest : List Message) (e : GqlError) :
    (gql_receive (some fresh) inbound = (.error e, rest) →
      gql_execute fresh query vars inbound = (.error e, rest)) ∧
    gql_execute "I" "q" none
      [{ id := some "I", payload := some sampleErrors },
       { id := some "I", type := some "complete" }] =
      (.error (.responseError sampleErrors),
       [{ id := some "I", type := some "complete" }]) ∧
    (gql_execute "I" "q" none
      [{ id := some "I", payload := some sampleErrors },
       { id := some "I", type := some "complete" }]).2 ≠ ([] : List Message) := by
  have hrid : (gql_start fresh query vars).retId = some fresh := rfl
  have hconc : (gql_execute "I" "q" none
      [{ id := some "I", payload := some sampleErrors },
       { id := some "I", type := some "complete" }]).2 =
      [{ id := some "I", type := some "complete" }] := rfl
  refine ⟨?_, rfl, ?_⟩
  · intro h
    simp only [gql_execute, hrid, h]
  · rw [hconc]
    exact fun hx => List.noConfusion hx

/-- Witness for C10: a lone errors-carrying response makes the whole
`gql_execute` fail with that response error. -/
theorem C10_execute_error_not_drained_witness :
    gql_execute "I" "q" none [{ id := some "I", payload := some sampleErrors }] =
      (.error (.responseError sampleErrors), []) :=
  (C10_execute_error_not_drained "I" "q" none
    [{ id := some "I", payload := some sampleErrors }] []
    (.responseError sampleErrors)).1 rfl

/-! ## Claim about the bounded wait -/

/-- C4: `gql_wait_response` tracks one cumulative budget: it defaults to
the module default timeout constant when unset; an iteration whose
transport receive times out is swallowed and polling continues with the
budget decremented by the iteration's elapsed time; an iteration whose
response fails the checker likewise only decrements the budget; and once
the remaining budget is not positive the loop fails with the timeout
error — whatever the stream still holds, so even if the last receive
attempt itself did not time out. -/
theorem C4_wait_timeout_budget (checker : Option Value → Bool)
    (elapsed : ℕ → ℚ) (fuel iter : ℕ) (t : ℚ) (stream rest : List Message)
    (pay : Option Value) :
    gql_wait_response checker none elapsed fuel stream =
      gql_wait_response checker (some TIMEOUT) elapsed fuel stream ∧
    (0 < t → gql_receive none stream = (.error .timeout, rest) →
      gql_wait_loop checker elapsed (fuel + 1) iter t stream =
        gql_wait_loop checker elapsed fuel (iter + 1) (t - elapsed iter) rest) ∧
    (0 < t → gql_receive none stream = (.ok pay, rest) → checker pay = false →
      gql_wait_loop checker elapsed (fuel + 1) iter t stream =
        gql_wait_loop checker elapsed fuel (iter + 1) (t - elapsed iter) rest) ∧
    (t ≤ 0 → gql_wait_loop checker elapsed (fuel + 1) iter t stream =
      .timeoutError) := by
  refine ⟨rfl, ?_, ?_, ?_⟩
  · intro h0 hrecv
    rw [gql_wait_loop, if_pos h0, hrecv]
  · intro h0 hrecv hchk
    rw [gql_wait_loop, if_pos h0, hrecv]
    simp [hchk]
  · intro hle
    rw [gql_wait_loop, if_neg (not_lt.mpr hle)]

/-- Witness for C4: concrete instances of the default, the swallowed
per-iteration timeout, the budget decrement on a non-matching response,
and the terminal timeout on an exhausted budget while a message is still
available. -/
theorem C4_wait_timeout_budget_witness :
    gql_wait_response (fun _ => false) none (fun _ => 1) 2 [] =
      gql_wait_response (fun _ => false) (some TIMEOUT) (fun _ => 1) 2 [] ∧
    gql_wait_loop (fun _ => false) (fun _ => 1) 1 0 1 [] =
      gql_wait_loop (fun _ => false) (fun _ => 1) 0 1 (1 - 1) [] ∧
    gql_wait_loop (fun _ => false) (fun _ => 1) 1 0 1
        [{ type := some "data" }] =
      gql_wait_loop (fun _ => false) (fun _ => 1) 0 1 (1 - 1) [] ∧
    gql_wait_loop (fun _ => false) (fun _ => 1) 1 0 0
        [{ type := some "data" }] = .timeoutError :=
  ⟨(C4_wait_timeout_budget (fun _ => false) (fun _ => 1) 2 0 1 [] [] none).1,
   (C4_wait_timeout_budget (fun _ => false) (fun _ => 1) 0 0 1 [] [] none).2.1
     (by norm_num) rfl,
   (C4_wait_timeout_budget (fun _ => false) (fun _ => 1) 0 0 1
     [{ type := some "data" }] [] none).2.2.1 (by norm_num) rfl rfl,
   (C4_wait_timeout_budget (fun _ => false) (fun _ => 1) 0 0 0
     [{ type := some "data" }] [] none).2.2.2 le_rfl⟩

/-! ## Dedenting lemmas for `gql_start` -/

theorem takeWhile_append_of_all {p : Char → Bool} {a : List Char}
    (b : List Char) (ha : a.all p = true) :
    (a ++ b).takeWhile p = a ++ b.takeWhile p := by
  induction a with
  | nil => simp
  | cons c cs ih =>
    rw [List.all_cons, Bool.and_eq_true] at ha
    simp [List.takeWhile_cons, ha.1, ih ha.2]

theorem dropWhile_append_of_all {p : Char → Bool} {a : List Char}
    (b : List Char) (ha : a.all p = true) :
    (a ++ b).dropWhile p = b.dropWhile p := by
  induction a with
  | nil => simp
  | cons c cs ih =>
    rw [List.all_cons, Bool.and_eq_true] at ha
    simp [List.dropWhile_cons, ha.1, ih ha.2]

theorem marginMeet_self (a : List Char) : marginMeet a a = a := by
  induction a with
  | nil => rfl
  | cons c cs ih => rw [marginMeet]; simp [ih]

theorem foldl_marginMeet_const (a : List Char) :
    ∀ (l : List (List Char)), (∀ x ∈ l, x = a) → l.foldl marginMeet a = a := by
  intro l
  induction l with
  | nil => intro _; rfl
  | cons x xs ih =>
    intro hx
    rw [List.foldl_cons, hx x (by simp), marginMeet_self]
    exact ih (fun y hy => hx y (by simp [hy]))

theorem isPrefixOf_self_append (a b : List Char) :
    a.isPrefixOf (a ++ b) = true := by
  induction a with
  | nil => cases b <;> rfl
  | cons c cs ih => simp [List.isPrefixOf, ih]

theorem stripMargin_append (margin l : List Char) :
    stripMargin margin (margin ++ l) = l := by
  cases margin with
  | nil => rfl
  | cons c cs =>
    rw [stripMargin, if_neg (by simp), if_pos (isPrefixOf_self_append _ _)]
    exact List.drop_left _ _

/-- Dedenting a block of lines all carrying the same horizontal
indentation strips exactly that indentation from every line. -/
theorem dedentLines_uniform (indent : List Char) (lines : List (List Char))
    (hind : indent.all isIndentChar = true)
    (hl : ∀ l ∈ lines, l ≠ [] ∧ isIndentChar l.headI = false)
    (hne : lines ≠ []) :
    dedentLines (lines.map (fun l => indent ++ l)) = lines := by
  have hhead : ∀ l ∈ lines, ∃ c t, l = c :: t ∧ isIndentChar c = false := by
    intro l hlmem
    obtain ⟨hlne, hlhead⟩ := hl l hlmem
    cases l with
    | nil => exact absurd rfl hlne
    | cons c t => exact ⟨c, t, rfl, by simpa [List.headI] using hlhead⟩
  have hA : (lines.map (fun l => indent ++ l)).map
      (fun l => if wsOnlyLine l then [] else l) =
      lines.map (fun l => indent ++ l) := by
    rw [List.map_map]
    refine List.map_congr_left ?_
    intro l hlmem
    obtain ⟨c, t, rfl, hc⟩ := hhead l hlmem
    have hall : (indent ++ c :: t).all isIndentChar = false := by
      rw [List.all_append, List.all_cons, hc, Bool.false_and, Bool.and_false]
    have hws : wsOnlyLine (indent ++ c :: t) = false := by
      rw [wsOnlyLine, hall, Bool.and_false]
    simp [hws]
  have hcontent : ∀ l ∈ lines, lineHasContent (indent ++ l) = true := by
    intro l hlmem
    obtain ⟨c, t, rfl, hc⟩ := hhead l hlmem
    rw [lineHasContent, dropWhile_append_of_all _ hind, List.dropWhile_cons,
      hc]
    simp
  have hB : (lines.map (fun l => indent ++ l)).filter lineHasContent =
      lines.map (fun l => indent ++ l) := by
    rw [List.filter_eq_self]
    intro x hx
    obtain ⟨l, hlmem, rfl⟩ := List.mem_map.mp hx
    exact hcontent l hlmem
  have hC : (lines.map (fun l => indent ++ l)).map lineIndent =
      lines.map (fun _ => indent) := by
    rw [List.map_map]
    refine List.map_congr_left ?_
    intro l hlmem
    obtain ⟨c, t, rfl, hc⟩ := hhead l hlmem
    show lineIndent (indent ++ c :: t) = indent
    rw [lineIndent, takeWhile_append_of_all _ hind, List.takeWhile_cons, hc]
    simp
  have hD : computeMargin (lines.map (fun _ => indent)) = indent := by
    cases lines with
    | nil => exact absurd rfl hne
    | cons L LS =>
      rw [List.map_cons, computeMargin]
      exact foldl_marginMeet_const indent _ (fun x hx => by
        obtain ⟨y, hy, rfl⟩ := List.mem_map.mp hx
        rfl)
  have hE : (lines.map (fun l => indent ++ l)).map (stripMargin indent) =
      lines := by
    rw [List.map_map]
    have : ∀ l ∈ lines, (stripMargin indent ∘ fun l => indent ++ l) l = l := by
      intro l hlmem
      exact stripMargin_append indent l
    rw [List.map_congr_left this]
    simp
  simp only [dedentLines]
  rw [hA, hB, hC, hD, hE]

/-! ## Claim about `gql_start` -/

/-- C8: `gql_start` sends a `type = "start"` message whose payload holds
the dedented query (common leading indentation trimmed across lines) and
the variables mapping — an empty mapping when not supplied — and returns
the correlation identifier produced by the send; on a query whose lines
all carry the same horizontal indentation, dedenting strips exactly that
indentation. -/
theorem C8_start_dedents_query (fresh query : String) (vars : Option Value)
    (indent : List Char) (lines : List (List Char))
    (hind : indent.all isIndentChar = true)
    (hl : ∀ l ∈ lines, l ≠ [] ∧ isIndentChar l.headI = false)
    (hne : lines ≠ []) :
    (gql_start fresh query vars).message.type = some "start" ∧
    (gql_start fresh query vars).message.payload =
      some (.obj [("query", .str (dedent query)),
                  ("variables", vars.getD (.obj []))]) ∧
    (gql_start fresh query none).message.payload =
      some (.obj [("query", .str (dedent query)),
                  ("variables", .obj [])]) ∧
    (gql_start fresh query vars).retId = some fresh ∧
    (gql_start fresh query vars).message.id = some fresh ∧
    (splitLinesL query.data = lines.map (fun l => indent ++ l) →
      dedent query = String.mk (joinLinesL lines)) := by
  refine ⟨rfl, rfl, rfl, rfl, rfl, ?_⟩
  intro hsplit
  rw [dedent, hsplit, dedentLines_uniform indent lines hind hl hne]

/-- Witness for C8: the two-line query indented by two spaces is sent
with both lines stripped of that margin. -/
theorem C8_start_dedents_query_witness :
    (gql_start "f" "  a\n  b" none).message.type = some "start" ∧
    dedent "  a\n  b" = String.mk (joinLinesL [['a'], ['b']]) :=
  ⟨(C8_start_dedents_query "f" "  a\n  b" none [' ', ' '] [['a'], ['b']]
      (by decide) (by decide) (by decide)).1,
   (C8_start_dedents_query "f" "  a\n  b" none [' ', ' '] [['a'], ['b']]
      (by decide) (by decide) (by decide)).2.2.2.2.2 (by decide)⟩
